import Mathlib

/-!
Verification development for the ucs-detect terminal-testing repository.

The definitions below are a shallow embedding of the two source files:
  * `docker-test/aggregate_results.py` — result loading, scoring, grading,
    ranking (the aggregation & grading engine), and
  * `test_terminals.py` — the multi-strategy test-execution orchestrator.

Python ints are modelled as `Int`, Python floats arising from the exact
arithmetic in the scoring formulas as `Rat`, Python `dict`s (insertion
ordered) as association lists, YAML documents as structures with `Option`
fields for possibly-absent keys, and raised exceptions as `Except`.
-/

namespace UcsDetect

/-! ## Grading (`aggregate_results.py`, lines 107-125)

`calculate_success_percentage(n_errors, n_total)` is
`((n_total - n_errors) / n_total if n_total else 0) * 100`; the Python
truthiness test `if n_total` is `n_total ≠ 0`. -/

def calculate_success_percentage (n_errors n_total : Int) : Rat :=
  (if n_total ≠ 0 then ((n_total : Rat) - (n_errors : Rat)) / (n_total : Rat) else 0) * 100

/-- `percentage_to_grade(percentage)`: the if/elif chain of lines 113-125,
`percentage >= c` rendered as `c ≤ p`. -/
def percentage_to_grade (p : Rat) : String :=
  if 95 ≤ p then "A+"
  else if 90 ≤ p then "A"
  else if 85 ≤ p then "A-"
  else if 80 ≤ p then "B+"
  else if 75 ≤ p then "B"
  else if 70 ≤ p then "B-"
  else if 65 ≤ p then "C+"
  else if 60 ≤ p then "C"
  else if 55 ≤ p then "C-"
  else if 50 ≤ p then "D+"
  else if 45 ≤ p then "D"
  else if 40 ≤ p then "D-"
  else "F"

/-- The full scale of letter grades the function can return, worst first. -/
def gradeScale : List String :=
  ["F", "D-", "D", "D+", "C-", "C", "C+", "B-", "B", "B+", "A-", "A", "A+"]

/-- Quality rank of a grade: position on `gradeScale` (F = 0, A+ = 12). -/
def gradeRank (g : String) : Nat :=
  ((gradeScale.indexOf g))

/-! ## Result documents (`aggregate_results.py`, lines 127-217)

A YAML result document: `test_results` maps each of four category keys
(possibly absent) to a sub-version dictionary; each sub-version entry may
or may not carry the `n_errors`/`n_total` (for `language_results`:
`errors`/`n_total`) integer keys. Dictionaries are insertion-ordered
association lists. -/

structure VersionEntry where
  n_errors : Option Int
  n_total : Option Int
  deriving DecidableEq

structure LangEntry where
  errors : Option Int
  n_total : Option Int
  deriving DecidableEq

structure TestResults where
  unicode_wide_results : Option (List (String × VersionEntry))
  emoji_vs16_results : Option (List (String × VersionEntry))
  emoji_zwj_results : Option (List (String × VersionEntry))
  language_results : Option (List (String × LangEntry))
  deriving DecidableEq

/-- One loaded YAML document; `test_results` may be absent.  A document that
is `None`/falsy as a whole is modelled by `Option ResultData = none` at the
use sites. -/
structure ResultData where
  test_results : Option TestResults
  deriving DecidableEq

/-- The accumulation loop `for version, vdata in ...: if 'n_errors' in vdata
and 'n_total' in vdata: errors += ...; total += ...` (lines 141-145 and its
VS16/ZWJ copies); an absent category key leaves both sums at 0. -/
def sumCategory (o : Option (List (String × VersionEntry))) : Int × Int :=
  match o with
  | none => (0, 0)
  | some l =>
    l.foldl (fun acc e =>
      match e.2.n_errors, e.2.n_total with
      | some ne, some nt => (acc.1 + ne, acc.2 + nt)
      | _, _ => acc) (0, 0)

/-- The LANG accumulation loop (lines 190-196): keys `errors`/`n_total`,
guarded by `if 'language_results' in test_results and
test_results['language_results']` (an absent or empty dictionary
contributes nothing). -/
def sumLang (o : Option (List (String × LangEntry))) : Int × Int :=
  match o with
  | none => (0, 0)
  | some l =>
    l.foldl (fun acc e =>
      match e.2.errors, e.2.n_total with
      | some ne, some nt => (acc.1 + ne, acc.2 + nt)
      | _, _ => acc) (0, 0)

structure CategoryScore where
  percentage : Rat
  grade : String
  errors : Int
  total : Int
  deriving DecidableEq

/-- Building one category's score dictionary (e.g. lines 147-153). -/
def mkCategoryScore (et : Int × Int) : CategoryScore :=
  { percentage := calculate_success_percentage et.1 et.2
    grade := percentage_to_grade (calculate_success_percentage et.1 et.2)
    errors := et.1
    total := et.2 }

structure FinalScore where
  percentage : Rat
  grade : String
  components : Nat
  deriving DecidableEq

/-- `terminal_scores`: the four category keys in insertion order WIDE,
VS16, ZWJ, LANG, plus FINAL. -/
structure TerminalScorecard where
  WIDE : CategoryScore
  VS16 : CategoryScore
  ZWJ : CategoryScore
  LANG : CategoryScore
  FINAL : FinalScore
  deriving DecidableEq

/-- The body of the `for terminal, data in results.items()` loop of
`calculate_terminal_scores` for one document whose `test_results` is
present (lines 135-213): four category scores, then
`valid_scores = [score['percentage'] for score in terminal_scores.values()
if score['total'] > 0]` and
`final_pct = sum(valid_scores) / len(valid_scores) if valid_scores else 0`. -/
def scoreOf (tr : TestResults) : TerminalScorecard :=
  let wide := mkCategoryScore (sumCategory tr.unicode_wide_results)
  let vs16 := mkCategoryScore (sumCategory tr.emoji_vs16_results)
  let zwj := mkCategoryScore (sumCategory tr.emoji_zwj_results)
  let lang := mkCategoryScore (sumLang tr.language_results)
  let valid_scores :=
    (([wide, vs16, zwj, lang].filter (fun s => 0 < s.total)).map
      (fun s => s.percentage))
  let final_pct :=
    if valid_scores ≠ [] then valid_scores.sum / (valid_scores.length : Rat) else 0
  { WIDE := wide, VS16 := vs16, ZWJ := zwj, LANG := lang
    FINAL :=
      { percentage := final_pct
        grade := percentage_to_grade final_pct
        components := valid_scores.length } }

/-- `calculate_terminal_scores(results)` (lines 127-217): iterate the
results dictionary in order, `continue` on a falsy document or one with no
`test_results` key, otherwise record `scoreOf`. -/
def calculate_terminal_scores (results : List (String × Option ResultData)) :
    List (String × TerminalScorecard) :=
  results.foldl (fun scores td =>
    match td.2 with
    | none => scores
    | some data =>
      match data.test_results with
      | none => scores
      | some tr => scores ++ [(td.1, scoreOf tr)]) []

/-! ## Result loading (`aggregate_results.py`, lines 11-29) -/

/-- Split a character list at every underscore (`str.split('_')` with no
limit: one more token than there are underscores, tokens may be empty). -/
def splitUnderscoreAux (cs : List Char) : List (List Char) :=
  match cs with
  | [] => [[]]
  | c :: rest =>
    let r := splitUnderscoreAux rest
    if c = '_' then [] :: r
    else
      match r with
      | [] => [[c]]
      | t :: ts => (c :: t) :: ts

/-- The underscore-delimited tokens of a filename stem. -/
def stemTokens (s : String) : List String :=
  (splitUnderscoreAux s.data).map (fun t => String.mk t)

/-- Rejoin token character lists with underscores (the inverse of
`splitUnderscoreAux`). -/
def joinUnderscoreChars : List (List Char) → List Char
  | [] => []
  | [t] => t
  | t :: ts => t ++ '_' :: joinUnderscoreChars ts

/-- `stem.rsplit('_', 2)`: split on `'_'` at most twice, from the right.
With `n` underscore-delimited tokens this yields the tokens themselves when
`n ≤ 3`, and otherwise the join of the first `n - 2` tokens followed by the
last two. -/
def pyRsplitUnderscore2 (s : String) : List String :=
  let toks := stemTokens s
  if toks.length ≤ 3 then toks
  else String.intercalate "_" (toks.take (toks.length - 2)) :: toks.drop (toks.length - 2)

/-- `terminal_name = yaml_file.stem.rsplit('_', 2)[0]` (line 20). -/
def terminal_name_of_stem (s : String) : String :=
  (pyRsplitUnderscore2 s).headD s

/-- Python dictionary assignment `d[k] = v` on an insertion-ordered
association list whose keys are distinct: overwrite in place, else append. -/
def dictInsert (k : String) (v : α) : List (String × α) → List (String × α)
  | [] => [(k, v)]
  | p :: l => if p.1 = k then (k, v) :: l else p :: dictInsert k v l

/-- Python dictionary lookup `d[k]` as an `Option`. -/
def dictLookup (k : String) : List (String × α) → Option α
  | [] => none
  | p :: l => if p.1 = k then some p.2 else dictLookup k l

/-- What the filesystem holds for one candidate `*.yaml` file, keyed by its
stem: either a successful parse (whose document may still be YAML `null`),
or an open/parse failure with its exception message. -/
inductive FileContent where
  | ok (data : Option ResultData)
  | bad (msg : String)
  deriving DecidableEq

/-- One iteration of the `for yaml_file in results_path.glob("*.yaml")`
loop (lines 19-27), carrying the results dictionary and the printed error
diagnostics. -/
def loadAccum (acc : List (String × Option ResultData) × List String)
    (f : String × FileContent) :
    List (String × Option ResultData) × List String :=
  match f.2 with
  | FileContent.ok data => (dictInsert (terminal_name_of_stem f.1) data acc.1, acc.2)
  | FileContent.bad msg => (acc.1, acc.2 ++ ["Error loading " ++ f.1 ++ ": " ++ msg])

/-- `load_results(results_dir)` (lines 11-29).  The directory is `none` when
it does not exist; otherwise it is the glob-ordered list of (stem, content)
pairs.  Returns the results dictionary together with the printed error
diagnostics; a missing directory is reported and yields an empty dictionary,
a failing file is recorded and skipped (`except` at line 26). -/
def load_results (dir : Option (List (String × FileContent))) :
    List (String × Option ResultData) × List String :=
  match dir with
  | none => ([], ["Results directory does not exist"])
  | some files => files.foldl loadAccum ([], [])

/-! ## Ranking (`generate_report`, lines 238-243)

`sorted_terminals.sort(key=lambda x: x[1], reverse=True)`: Python's sort is
stable, so this is a stable sort descending on the percentage component,
modelled by a stable insertion sort. -/

/-- Insert into a descending-sorted list, after every strictly greater key
(so that, among equal keys, earlier elements stay first). -/
def insertRankedDesc (x : String × Rat) : List (String × Rat) → List (String × Rat)
  | [] => [x]
  | y :: ys => if x.2 < y.2 then y :: insertRankedDesc x ys else x :: y :: ys

/-- Stable sort, descending on the second component. -/
def sortRankedDesc : List (String × Rat) → List (String × Rat)
  | [] => []
  | x :: xs => insertRankedDesc x (sortRankedDesc xs)

/-- Lines 238-243: build `(terminal, FINAL percentage)` pairs in dictionary
insertion order, then sort by percentage, best first. -/
def rank_terminals (scores : List (String × TerminalScorecard)) : List (String × Rat) :=
  sortRankedDesc (scores.map (fun p => (p.1, p.2.FINAL.percentage)))

/-! ## The orchestrator (`test_terminals.py`) -/

inductive Strategy where
  | docker
  | native
  | xvfb
  deriving DecidableEq

/-- The environment one terminal's `auto`-mode fallback chain runs in.  The
three `test_*` methods are deterministic within a run, so each strategy's
outcome (`None` on failure) is a fixed field. -/
structure AutoEnv (α : Type) where
  needs_display : Bool
  xvfb_available : Bool
  docker_available : Bool
  native_outcome : Option α
  xvfb_outcome : Option α
  docker_outcome : Option α

def strategyOutcome (env : AutoEnv α) : Strategy → Option α
  | Strategy.native => env.native_outcome
  | Strategy.xvfb => env.xvfb_outcome
  | Strategy.docker => env.docker_outcome

/-- The `auto` branch of `run_tests` (lines 320-330), instrumented with the
ordered list of strategy invocations it performs:

    result = None
    if not needs_display:            result = test_terminal_native(t)
    if result is None and xvfb-run:  result = test_with_xvfb(t)
    if result is None and docker:    result = test_terminal_docker(t)
    if result is None:               result = test_terminal_native(t)
-/
def autoRun (env : AutoEnv α) : List Strategy × Option α :=
  let s1 : List Strategy × Option α :=
    if !env.needs_display then ([Strategy.native], env.native_outcome) else ([], none)
  let s2 :=
    if s1.2.isNone && env.xvfb_available then
      (s1.1 ++ [Strategy.xvfb], env.xvfb_outcome)
    else s1
  let s3 :=
    if s2.2.isNone && env.docker_available then
      (s2.1 ++ [Strategy.docker], env.docker_outcome)
    else s2
  if s3.2.isNone then (s3.1 ++ [Strategy.native], env.native_outcome) else s3

/-- Environment of one `test_terminal_docker` call (lines 111-193). -/
structure DockerEnv (α : Type) where
  build_succeeds : Bool
  run_times_out : Bool
  run_returncode : Int
  stdout_has_marker : Bool
  yaml_parse : Except String (Option α)

/-- `test_terminal_docker` (lines 111-193).  The body is a `try`/`finally`
with no `except` clause, so `subprocess.run(build_cmd, check=True, ...)`
raising `CalledProcessError` on a failing build (line 158) and
`subprocess.run(run_cmd, ..., timeout=30)` raising `TimeoutExpired`
(line 168) both propagate out of the method, modelled as `Except.error`.
Only the YAML-extraction step is guarded by a bare `except` (line 185),
which returns `None`; a nonzero container exit also returns `None`. -/
def test_terminal_docker (env : DockerEnv α) : Except String (Option α) :=
  if !env.build_succeeds then
    Except.error "CalledProcessError: docker build"
  else if env.run_times_out then
    Except.error "TimeoutExpired: docker run"
  else if env.run_returncode = 0 then
    if env.stdout_has_marker then
      match env.yaml_parse with
      | Except.ok data => Except.ok data
      | Except.error _ => Except.ok none
    else Except.ok none
  else Except.ok none

/-- Environment of one `test_terminal_native` call (lines 195-252). -/
structure NativeEnv (α : Type) where
  available : Bool
  needs_display : Bool
  display_set : Bool
  launch_raises : Bool
  output_file_exists : Bool
  parsed : Option α

/-- `test_terminal_native` (lines 195-252): every failure path — terminal
unavailable, display required but unset, the launch raising
`TimeoutExpired` or any other exception (both caught, lines 244-249), or
no output file — returns `None`; it never raises. -/
def test_terminal_native (env : NativeEnv α) : Option α :=
  if !env.available then none
  else if env.needs_display && !env.display_set then none
  else if env.launch_raises then none
  else if env.output_file_exists then env.parsed
  else none

/-! ## Specification-side definitions (for comparison with the code) -/

/-- The unweighted arithmetic mean of a list of percentages, 0 for an
empty list (spec §3, the FINAL invariant). -/
def specMean (l : List Rat) : Rat :=
  if l = [] then 0 else l.sum / (l.length : Rat)

/-- The sub-version entries of a category that carry both counter keys, as
(errors, total) pairs — spec §4.3 sums over exactly these entries. -/
def specCountedPairs (l : List (String × VersionEntry)) : List (Int × Int) :=
  l.filterMap (fun e =>
    match e.2.n_errors, e.2.n_total with
    | some a, some b => some (a, b)
    | _, _ => none)

/-- Counterpart of `specCountedPairs` for `language_results` entries. -/
def specCountedLangPairs (l : List (String × LangEntry)) : List (Int × Int) :=
  l.filterMap (fun e =>
    match e.2.errors, e.2.n_total with
    | some a, some b => some (a, b)
    | _, _ => none)

/-- The threshold table of `percentage_to_grade`, highest bucket first. -/
def gradeChain : List (Rat × String) :=
  [(95, "A+"), (90, "A"), (85, "A-"), (80, "B+"), (75, "B"), (70, "B-"),
   (65, "C+"), (60, "C"), (55, "C-"), (50, "D+"), (45, "D"), (40, "D-")]

/-- Evaluate a threshold table on a percentage: first bucket whose
inclusive lower bound is met, `"F"` when none is. -/
def chainGrade : List (Rat × String) → Rat → String
  | [], _ => "F"
  | (t, g) :: rest, p => if t ≤ p then g else chainGrade rest p

/-- Position reached on a threshold table: how many buckets lie at or
below the matched one (0 when no bucket matches). -/
def chainIndex : List (Rat × String) → Rat → Nat
  | [], _ => 0
  | (t, _) :: rest, p => if t ≤ p then rest.length + 1 else chainIndex rest p

/-- A threshold table whose grades rank in step with their position. -/
def goodChain : List (Rat × String) → Prop
  | [] => True
  | (_, g) :: rest => gradeRank g = rest.length + 1 ∧ goodChain rest

/-- The terminal-identity rule exactly as claim C10 words it: strip the two
trailing underscore-delimited tokens; a filename with fewer than two tokens
is keyed by its whole stem unchanged. -/
def claimedKeyC10 (s : String) : String :=
  let toks := stemTokens s
  if toks.length < 2 then s
  else String.intercalate "_" (toks.take (toks.length - 2))

/-- The results-dictionary half of one `loadAccum` step. -/
def insertFileAccum (r : List (String × Option ResultData))
    (f : String × FileContent) : List (String × Option ResultData) :=
  match f.2 with
  | FileContent.ok data => dictInsert (terminal_name_of_stem f.1) data r
  | FileContent.bad _ => r

/-- The results dictionary rebuilt from the parseable files alone. -/
def loadedDict (files : List (String × FileContent)) :
    List (String × Option ResultData) :=
  files.foldl insertFileAccum []

/-- The document file `f` contributes under terminal identity `k`:
its parsed data when `f` parses and its stem reduces to `k`. -/
def matchedDoc (k : String) (f : String × FileContent) :
    Option (Option ResultData) :=
  match f.2 with
  | FileContent.ok data =>
    if terminal_name_of_stem f.1 = k then some data else none
  | FileContent.bad _ => none

/-- Whether a candidate file parses successfully. -/
def isParseOk (f : String × FileContent) : Bool :=
  match f.2 with
  | FileContent.ok _ => true
  | FileContent.bad _ => false

/-- The diagnostic line printed for one unparseable file, if any. -/
def diagnosticOf (f : String × FileContent) : Option String :=
  match f.2 with
  | FileContent.ok _ => none
  | FileContent.bad msg => some ("Error loading " ++ f.1 ++ ": " ++ msg)

/-! ## Test fixtures -/

/-- Fixture: a `test_results` dictionary with none of the four category
keys present. -/
def emptyTestResults : TestResults :=
  { unicode_wide_results := none
    emoji_vs16_results := none
    emoji_zwj_results := none
    language_results := none }

/-- Fixture for C2: a document whose VS16 category holds the sub-versions
`{v1: errors=2, total=10; v2: errors=0, total=5}`. -/
def vs16ExampleResults : TestResults :=
  { unicode_wide_results := none
    emoji_vs16_results := some
      [("v1", { n_errors := some 2, n_total := some 10 }),
       ("v2", { n_errors := some 0, n_total := some 5 })]
    emoji_zwj_results := none
    language_results := none }

/-- Fixture: an all-zero category score. -/
def dummyCategoryScore : CategoryScore :=
  mkCategoryScore (0, 0)

/-- Fixture: a scorecard whose FINAL percentage is `p`. -/
def cardOfFinal (p : Rat) : TerminalScorecard :=
  { WIDE := dummyCategoryScore
    VS16 := dummyCategoryScore
    ZWJ := dummyCategoryScore
    LANG := dummyCategoryScore
    FINAL := { percentage := p, grade := percentage_to_grade p, components := 1 } }

/-- Fixture for the C6 counterexample: a displayless terminal on a host
with neither `xvfb-run` nor `docker`, whose native attempt fails. -/
def strandedEnv : AutoEnv Unit :=
  { needs_display := false
    xvfb_available := false
    docker_available := false
    native_outcome := none
    xvfb_outcome := none
    docker_outcome := none }

/-! ## Helper lemmas -/

/-- `calculate_terminal_scores` records exactly the documents that carry a
`test_results` key, in input order. -/
theorem calculate_terminal_scores_eq_filterMap
    (results : List (String × Option ResultData)) :
    calculate_terminal_scores results = results.filterMap (fun td =>
      match td.2 with
      | none => none
      | some data =>
        match data.test_results with
        | none => none
        | some tr => some (td.1, scoreOf tr)) := by
  have general : ∀ (l : List (String × Option ResultData))
      (acc : List (String × TerminalScorecard)),
      l.foldl (fun scores td =>
        match td.2 with
        | none => scores
        | some data =>
          match data.test_results with
          | none => scores
          | some tr => scores ++ [(td.1, scoreOf tr)]) acc
        = acc ++ l.filterMap (fun td =>
            match td.2 with
            | none => none
            | some data =>
              match data.test_results with
              | none => none
              | some tr => some (td.1, scoreOf tr)) := by
    intro l
    induction l with
    | nil => intro acc; simp
    | cons hd tl ih =>
      intro acc
      match h : hd.2 with
      | none => simp [List.foldl_cons, List.filterMap_cons, h, ih]
      | some data =>
        match h2 : data.test_results with
        | none => simp [List.foldl_cons, List.filterMap_cons, h, h2, ih]
        | some tr => simp [List.foldl_cons, List.filterMap_cons, h, h2, ih]
  simpa [calculate_terminal_scores] using general results []

/-- Unfolding the FINAL computation of `scoreOf`: the percentage is the
mean over the categories with positive total, and `components` counts
them. -/
theorem scoreOf_final_spec (tr : TestResults) :
    (scoreOf tr).FINAL.percentage =
      specMean ((([(scoreOf tr).WIDE, (scoreOf tr).VS16, (scoreOf tr).ZWJ,
        (scoreOf tr).LANG].filter (fun c => 0 < c.total)).map
          (fun c => c.percentage))) ∧
    (scoreOf tr).FINAL.components =
      (([(scoreOf tr).WIDE, (scoreOf tr).VS16, (scoreOf tr).ZWJ,
        (scoreOf tr).LANG].filter (fun c => 0 < c.total)).length) := by
  simp only [scoreOf, specMean]
  constructor
  · split <;> simp_all
  · simp [List.length_map]

/-- The FINAL grade is always computed from the FINAL percentage. -/
theorem scoreOf_final_grade (tr : TestResults) :
    (scoreOf tr).FINAL.grade = percentage_to_grade (scoreOf tr).FINAL.percentage := rfl

/-- The grade of 0 % is F. -/
theorem percentage_to_grade_zero : percentage_to_grade 0 = "F" := by decide

/-- The category accumulation loop computes the componentwise sums over
the entries carrying both counter keys. -/
theorem sumCategory_spec (o : Option (List (String × VersionEntry))) :
    sumCategory o = (((specCountedPairs (o.getD [])).map Prod.fst).sum,
                     ((specCountedPairs (o.getD [])).map Prod.snd).sum) := by
  have general : ∀ (l : List (String × VersionEntry)) (a b : Int),
      (l.foldl (fun acc e =>
        match e.2.n_errors, e.2.n_total with
        | some ne, some nt => (acc.1 + ne, acc.2 + nt)
        | _, _ => acc) (a, b))
        = (a + ((specCountedPairs l).map Prod.fst).sum,
           b + ((specCountedPairs l).map Prod.snd).sum) := by
    intro l
    induction l with
    | nil => intro a b; simp [specCountedPairs]
    | cons hd tl ih =>
      intro a b
      match h1 : hd.2.n_errors, h2 : hd.2.n_total with
      | some ne, some nt =>
        simp [specCountedPairs, List.filterMap_cons, h1, h2, ih, add_assoc]
      | some ne, none =>
        simp [specCountedPairs, List.filterMap_cons, h1, h2, ih]
      | none, some nt =>
        simp [specCountedPairs, List.filterMap_cons, h1, h2, ih]
      | none, none =>
        simp [specCountedPairs, List.filterMap_cons, h1, h2, ih]
  match o with
  | none => simp [sumCategory, specCountedPairs]
  | some l => simpa [sumCategory] using general l 0 0

/-- Counterpart of `sumCategory_spec` for the LANG accumulation loop. -/
theorem sumLang_spec (o : Option (List (String × LangEntry))) :
    sumLang o = (((specCountedLangPairs (o.getD [])).map Prod.fst).sum,
                 ((specCountedLangPairs (o.getD [])).map Prod.snd).sum) := by
  have general : ∀ (l : List (String × LangEntry)) (a b : Int),
      (l.foldl (fun acc e =>
        match e.2.errors, e.2.n_total with
        | some ne, some nt => (acc.1 + ne, acc.2 + nt)
        | _, _ => acc) (a, b))
        = (a + ((specCountedLangPairs l).map Prod.fst).sum,
           b + ((specCountedLangPairs l).map Prod.snd).sum) := by
    intro l
    induction l with
    | nil => intro a b; simp [specCountedLangPairs]
    | cons hd tl ih =>
      intro a b
      match h1 : hd.2.errors, h2 : hd.2.n_total with
      | some ne, some nt =>
        simp [specCountedLangPairs, List.filterMap_cons, h1, h2, ih, add_assoc]
      | some ne, none =>
        simp [specCountedLangPairs, List.filterMap_cons, h1, h2, ih]
      | none, some nt =>
        simp [specCountedLangPairs, List.filterMap_cons, h1, h2, ih]
      | none, none =>
        simp [specCountedLangPairs, List.filterMap_cons, h1, h2, ih]
  match o with
  | none => simp [sumLang, specCountedLangPairs]
  | some l => simpa [sumLang] using general l 0 0

/-! ## Claim theorems -/

/-- C1: in every computed scorecard, the FINAL percentage is the unweighted
arithmetic mean of the percentages of exactly the categories whose summed
total is positive, FINAL.components counts those categories, and when no
category has a positive total the FINAL score is 0 %, grade F, with 0
components. -/
theorem final_percentage_is_mean_of_tested_categories
    (results : List (String × Option ResultData))
    (p : String × TerminalScorecard)
    (hp : p ∈ calculate_terminal_scores results) :
    p.2.FINAL.percentage =
      specMean ((([p.2.WIDE, p.2.VS16, p.2.ZWJ, p.2.LANG].filter
        (fun c => 0 < c.total)).map (fun c => c.percentage))) ∧
    p.2.FINAL.components =
      ([p.2.WIDE, p.2.VS16, p.2.ZWJ, p.2.LANG].filter
        (fun c => 0 < c.total)).length ∧
    (([p.2.WIDE, p.2.VS16, p.2.ZWJ, p.2.LANG].filter
        (fun c => 0 < c.total)) = [] →
      p.2.FINAL.percentage = 0 ∧ p.2.FINAL.grade = "F" ∧
        p.2.FINAL.components = 0) := by
  rw [calculate_terminal_scores_eq_filterMap] at hp
  obtain ⟨td, htd, heq⟩ := List.mem_filterMap.mp hp
  match h : td.2 with
  | none => rw [h] at heq; simp at heq
  | some data =>
    rw [h] at heq
    match h2 : data.test_results with
    | none => simp [h2] at heq
    | some tr =>
      simp only [h2, Option.some.injEq] at heq
      subst heq
      refine ⟨(scoreOf_final_spec tr).1, (scoreOf_final_spec tr).2, ?_⟩
      intro hempty
      have h1 := (scoreOf_final_spec tr).1
      have h2c := (scoreOf_final_spec tr).2
      rw [hempty] at h1 h2c
      simp only [List.map_nil, List.length_nil] at h1 h2c
      have hz : specMean [] = 0 := by simp [specMean]
      rw [hz] at h1
      exact ⟨h1, by rw [scoreOf_final_grade, h1, percentage_to_grade_zero], h2c⟩

/-- C1 witness: for a concrete document whose only tested category is VS16
with 2 errors out of 15, the FINAL percentage is that category's
percentage, 260/3 ≈ 86.67 %, with 1 component. -/
theorem final_percentage_is_mean_of_tested_categories_witness :
    (scoreOf vs16ExampleResults).FINAL.percentage = 260 / 3 ∧
    (scoreOf vs16ExampleResults).FINAL.components = 1 := by
  have h := final_percentage_is_mean_of_tested_categories
    [("kitty", some { test_results := some vs16ExampleResults })]
    ("kitty", scoreOf vs16ExampleResults)
    (by rw [calculate_terminal_scores_eq_filterMap]; simp)
  constructor
  · rw [h.1]
    norm_num [scoreOf, vs16ExampleResults, mkCategoryScore, sumCategory, sumLang,
      calculate_success_percentage, specMean]
  · rw [h.2.1]
    norm_num [scoreOf, vs16ExampleResults, mkCategoryScore, sumCategory, sumLang,
      calculate_success_percentage]

/-- C2 counterexample: for the claim's own concrete document — VS16
sub-versions `{v1: errors=2,total=10; v2: errors=0,total=5}` — the code
computes percentage 260/3 ≈ 86.67, which grades "A-" on the 85-threshold
bucket, not "B+" as the claim states. -/
theorem vs16_example_grade_not_B_plus :
    (scoreOf vs16ExampleResults).VS16.percentage = 260 / 3 ∧
    (scoreOf vs16ExampleResults).VS16.grade = "A-" ∧
    ¬ (scoreOf vs16ExampleResults).VS16.grade = "B+" := by
  norm_num [scoreOf, vs16ExampleResults, mkCategoryScore, sumCategory,
    calculate_success_percentage, percentage_to_grade]
  decide

/-- C2 (amended): each of the four category scores sums `n_errors` and
`n_total` (for LANG: `errors`/`n_total`) over every sub-version entry
carrying both keys — summation, not averaging — then applies the
percentage formula and grades the result; on the claim's concrete VS16
example this yields errors=2, total=15, percentage 260/3 ≈ 86.67 and
grade "A-". -/
theorem category_scores_sum_subversions (tr : TestResults) :
    ((scoreOf tr).WIDE.errors
        = ((specCountedPairs (tr.unicode_wide_results.getD [])).map Prod.fst).sum ∧
      (scoreOf tr).WIDE.total
        = ((specCountedPairs (tr.unicode_wide_results.getD [])).map Prod.snd).sum ∧
      (scoreOf tr).WIDE.percentage
        = calculate_success_percentage (scoreOf tr).WIDE.errors (scoreOf tr).WIDE.total ∧
      (scoreOf tr).WIDE.grade = percentage_to_grade (scoreOf tr).WIDE.percentage) ∧
    ((scoreOf tr).VS16.errors
        = ((specCountedPairs (tr.emoji_vs16_results.getD [])).map Prod.fst).sum ∧
      (scoreOf tr).VS16.total
        = ((specCountedPairs (tr.emoji_vs16_results.getD [])).map Prod.snd).sum ∧
      (scoreOf tr).VS16.percentage
        = calculate_success_percentage (scoreOf tr).VS16.errors (scoreOf tr).VS16.total ∧
      (scoreOf tr).VS16.grade = percentage_to_grade (scoreOf tr).VS16.percentage) ∧
    ((scoreOf tr).ZWJ.errors
        = ((specCountedPairs (tr.emoji_zwj_results.getD [])).map Prod.fst).sum ∧
      (scoreOf tr).ZWJ.total
        = ((specCountedPairs (tr.emoji_zwj_results.getD [])).map Prod.snd).sum ∧
      (scoreOf tr).ZWJ.percentage
        = calculate_success_percentage (scoreOf tr).ZWJ.errors (scoreOf tr).ZWJ.total ∧
      (scoreOf tr).ZWJ.grade = percentage_to_grade (scoreOf tr).ZWJ.percentage) ∧
    ((scoreOf tr).LANG.errors
        = ((specCountedLangPairs (tr.language_results.getD [])).map Prod.fst).sum ∧
      (scoreOf tr).LANG.total
        = ((specCountedLangPairs (tr.language_results.getD [])).map Prod.snd).sum ∧
      (scoreOf tr).LANG.percentage
        = calculate_success_percentage (scoreOf tr).LANG.errors (scoreOf tr).LANG.total ∧
      (scoreOf tr).LANG.grade = percentage_to_grade (scoreOf tr).LANG.percentage) ∧
    (scoreOf vs16ExampleResults).VS16
      = { percentage := 260 / 3, grade := "A-", errors := 2, total := 15 } := by
  refine ⟨⟨?_, ?_, rfl, rfl⟩, ⟨?_, ?_, rfl, rfl⟩, ⟨?_, ?_, rfl, rfl⟩, ⟨?_, ?_, rfl, rfl⟩, ?_⟩
  · simp [scoreOf, mkCategoryScore, sumCategory_spec]
  · simp [scoreOf, mkCategoryScore, sumCategory_spec]
  · simp [scoreOf, mkCategoryScore, sumCategory_spec]
  · simp [scoreOf, mkCategoryScore, sumCategory_spec]
  · simp [scoreOf, mkCategoryScore, sumCategory_spec]
  · simp [scoreOf, mkCategoryScore, sumCategory_spec]
  · simp [scoreOf, mkCategoryScore, sumLang_spec]
  · simp [scoreOf, mkCategoryScore, sumLang_spec]
  · norm_num [scoreOf, vs16ExampleResults, mkCategoryScore, sumCategory,
      calculate_success_percentage, percentage_to_grade, CategoryScore.mk.injEq]

/-- C4: the grading formula does not clamp: on the invariant-violating
input n_errors=5, n_total=2 it returns -150, a value outside [0,100]. -/
theorem success_percentage_escapes_range :
    calculate_success_percentage 5 2 = -150 ∧ calculate_success_percentage 5 2 < 0 := by
  norm_num [calculate_success_percentage]

/-- C5 counterexample: a document lacking the `test_results` substructure
(and likewise an empty/None document) yields no scorecard at all — its
terminal is absent from the scores mapping, rather than present with four
zero-total categories. -/
theorem missing_test_results_yields_no_scorecard :
    calculate_terminal_scores [("xterm", some { test_results := none })] = [] ∧
    calculate_terminal_scores [("xterm", none)] = [] := ⟨rfl, rfl⟩

/-- C5 (amended): documents lacking the category-results substructure (or
empty documents) are silently skipped — no scorecard and no error — while
a document whose `test_results` is present but holds none of the four
category keys yields a scorecard with all four categories at total=0 and
FINAL = 0 %, "F", 0 components. -/
theorem scores_skip_documents_without_test_results :
    (∀ results, calculate_terminal_scores results = results.filterMap (fun td =>
      match td.2 with
      | none => none
      | some data =>
        match data.test_results with
        | none => none
        | some tr => some (td.1, scoreOf tr))) ∧
    (scoreOf emptyTestResults).WIDE.total = 0 ∧
    (scoreOf emptyTestResults).VS16.total = 0 ∧
    (scoreOf emptyTestResults).ZWJ.total = 0 ∧
    (scoreOf emptyTestResults).LANG.total = 0 ∧
    (scoreOf emptyTestResults).FINAL
      = { percentage := 0, grade := "F", components := 0 } := by
  refine ⟨calculate_terminal_scores_eq_filterMap, rfl, rfl, rfl, rfl, ?_⟩
  norm_num [scoreOf, emptyTestResults, mkCategoryScore, sumCategory, sumLang,
    calculate_success_percentage, percentage_to_grade, FinalScore.mk.injEq]

/-- C7: the containerized strategy lets exceptions escape its boundary —
a failing image build raises `CalledProcessError` (via `check=True`) and a
container run exceeding the 30-second bound raises `TimeoutExpired`,
instead of returning the explicit `None` failure outcome the other
strategies return. -/
theorem docker_strategy_raises_past_boundary :
    (test_terminal_docker
        { build_succeeds := false, run_times_out := false, run_returncode := 0,
          stdout_has_marker := false, yaml_parse := Except.ok none }
      : Except String (Option Unit)) = Except.error "CalledProcessError: docker build" ∧
    (test_terminal_docker
        { build_succeeds := true, run_times_out := true, run_returncode := 0,
          stdout_has_marker := false, yaml_parse := Except.ok none }
      : Except String (Option Unit)) = Except.error "TimeoutExpired: docker run" :=
  ⟨rfl, rfl⟩


/-- The source's literal if/elif chain is the evaluation of its threshold
table. -/
theorem percentage_to_grade_eq_chain (p : Rat) :
    percentage_to_grade p = chainGrade gradeChain p := rfl

/-- A threshold table never selects more buckets than it has. -/
theorem chainIndex_le_length (L : List (Rat × String)) (p : Rat) :
    chainIndex L p ≤ L.length := by
  induction L with
  | nil => simp [chainIndex]
  | cons hd tl ih =>
    obtain ⟨t, g⟩ := hd
    rw [chainIndex]
    split
    · simp
    · exact le_trans ih (by simp)

/-- A larger percentage reaches an equal or higher table position. -/
theorem chainIndex_mono (L : List (Rat × String)) (p q : Rat) (hpq : p ≤ q) :
    chainIndex L p ≤ chainIndex L q := by
  induction L with
  | nil => simp [chainIndex]
  | cons hd tl ih =>
    obtain ⟨t, g⟩ := hd
    rw [chainIndex, chainIndex]
    by_cases hp : t ≤ p
    · rw [if_pos hp, if_pos (le_trans hp hpq)]
    · rw [if_neg hp]
      by_cases hq : t ≤ q
      · rw [if_pos hq]
        exact le_trans (chainIndex_le_length tl p) (by simp)
      · rw [if_neg hq]
        exact ih

/-- On a well-ranked table the grade's quality rank is the table
position. -/
theorem rank_chainGrade (L : List (Rat × String)) (hL : goodChain L) (p : Rat) :
    gradeRank (chainGrade L p) = chainIndex L p := by
  induction L with
  | nil => rfl
  | cons hd tl ih =>
    obtain ⟨t, g⟩ := hd
    obtain ⟨h1, h2⟩ := hL
    rw [chainGrade, chainIndex]
    by_cases hp : t ≤ p
    · rw [if_pos hp, if_pos hp]
      exact h1
    · rw [if_neg hp, if_neg hp]
      exact ih h2

/-- The grading table's grades rank in step with their position. -/
theorem goodChain_gradeChain : goodChain gradeChain := by
  refine ⟨?_, ?_, ?_, ?_, ?_, ?_, ?_, ?_, ?_, ?_, ?_, ?_, trivial⟩ <;> decide

/-- Table evaluation stays inside the grade scale. -/
theorem chainGrade_mem (L : List (Rat × String)) (p : Rat)
    (hmem : ∀ g ∈ L.map Prod.snd, g ∈ gradeScale) :
    chainGrade L p ∈ gradeScale := by
  induction L with
  | nil => rw [chainGrade]; decide
  | cons hd tl ih =>
    obtain ⟨t, g⟩ := hd
    rw [chainGrade]
    split
    · exact hmem g (by simp)
    · exact ih (fun x hx => hmem x (by simp [hx]))

/-- C3: `percentage_to_grade` is a total function returning only scale
grades, its quality rank is monotone non-decreasing in the percentage, it
realizes the inclusive lower-bound thresholds 95→A+, 90→A, 85→A-, 80→B+,
75→B, 70→B-, 65→C+, 60→C, 55→C-, 50→D+, 45→D, 40→D-, else F, and
95 → "A+", 94.999 → "A", 0 → "F". -/
theorem percentage_to_grade_total_monotone_thresholds :
    (∀ p : Rat, percentage_to_grade p ∈ gradeScale) ∧
    (∀ p q : Rat, p ≤ q →
      gradeRank (percentage_to_grade p) ≤ gradeRank (percentage_to_grade q)) ∧
    (∀ p : Rat,
      (95 ≤ p → percentage_to_grade p = "A+") ∧
      (90 ≤ p ∧ p < 95 → percentage_to_grade p = "A") ∧
      (85 ≤ p ∧ p < 90 → percentage_to_grade p = "A-") ∧
      (80 ≤ p ∧ p < 85 → percentage_to_grade p = "B+") ∧
      (75 ≤ p ∧ p < 80 → percentage_to_grade p = "B") ∧
      (70 ≤ p ∧ p < 75 → percentage_to_grade p = "B-") ∧
      (65 ≤ p ∧ p < 70 → percentage_to_grade p = "C+") ∧
      (60 ≤ p ∧ p < 65 → percentage_to_grade p = "C") ∧
      (55 ≤ p ∧ p < 60 → percentage_to_grade p = "C-") ∧
      (50 ≤ p ∧ p < 55 → percentage_to_grade p = "D+") ∧
      (45 ≤ p ∧ p < 50 → percentage_to_grade p = "D") ∧
      (40 ≤ p ∧ p < 45 → percentage_to_grade p = "D-") ∧
      (p < 40 → percentage_to_grade p = "F")) ∧
    percentage_to_grade 95 = "A+" ∧
    percentage_to_grade (94999 / 1000) = "A" ∧
    percentage_to_grade 0 = "F" := by
  refine ⟨?_, ?_, ?_, by decide, by norm_num [percentage_to_grade], by decide⟩
  · intro p
    rw [percentage_to_grade_eq_chain]
    exact chainGrade_mem gradeChain p (by decide)
  · intro p q hpq
    rw [percentage_to_grade_eq_chain, percentage_to_grade_eq_chain,
      rank_chainGrade gradeChain goodChain_gradeChain,
      rank_chainGrade gradeChain goodChain_gradeChain]
    exact chainIndex_mono gradeChain p q hpq
  · intro p
    refine ⟨?_, ?_, ?_, ?_, ?_, ?_, ?_, ?_, ?_, ?_, ?_, ?_, ?_⟩
    · intro h1
      unfold percentage_to_grade
      rw [if_pos h1]
    · rintro ⟨h1, h2⟩
      unfold percentage_to_grade
      rw [if_neg (show ¬(95:Rat) ≤ p by linarith),
        if_pos h1]
    · rintro ⟨h1, h2⟩
      unfold percentage_to_grade
      rw [if_neg (show ¬(95:Rat) ≤ p by linarith),
        if_neg (show ¬(90:Rat) ≤ p by linarith),
        if_pos h1]
    · rintro ⟨h1, h2⟩
      unfold percentage_to_grade
      rw [if_neg (show ¬(95:Rat) ≤ p by linarith),
        if_neg (show ¬(90:Rat) ≤ p by linarith),
        if_neg (show ¬(85:Rat) ≤ p by linarith),
        if_pos h1]
    · rintro ⟨h1, h2⟩
      unfold percentage_to_grade
      rw [if_neg (show ¬(95:Rat) ≤ p by linarith),
        if_neg (show ¬(90:Rat) ≤ p by linarith),
        if_neg (show ¬(85:Rat) ≤ p by linarith),
        if_neg (show ¬(80:Rat) ≤ p by linarith),
        if_pos h1]
    · rintro ⟨h1, h2⟩
      unfold percentage_to_grade
      rw [if_neg (show ¬(95:Rat) ≤ p by linarith),
        if_neg (show ¬(90:Rat) ≤ p by linarith),
        if_neg (show ¬(85:Rat) ≤ p by linarith),
        if_neg (show ¬(80:Rat) ≤ p by linarith),
        if_neg (show ¬(75:Rat) ≤ p by linarith),
        if_pos h1]
    · rintro ⟨h1, h2⟩
      unfold percentage_to_grade
      rw [if_neg (show ¬(95:Rat) ≤ p by linarith),
        if_neg (show ¬(90:Rat) ≤ p by linarith),
        if_neg (show ¬(85:Rat) ≤ p by linarith),
        if_neg (show ¬(80:Rat) ≤ p by linarith),
        if_neg (show ¬(75:Rat) ≤ p by linarith),
        if_neg (show ¬(70:Rat) ≤ p by linarith),
        if_pos h1]
    · rintro ⟨h1, h2⟩
      unfold percentage_to_grade
      rw [if_neg (show ¬(95:Rat) ≤ p by linarith),
        if_neg (show ¬(90:Rat) ≤ p by linarith),
        if_neg (show ¬(85:Rat) ≤ p by linarith),
        if_neg (show ¬(80:Rat) ≤ p by linarith),
        if_neg (show ¬(75:Rat) ≤ p by linarith),
        if_neg (show ¬(70:Rat) ≤ p by linarith),
        if_neg (show ¬(65:Rat) ≤ p by linarith),
        if_pos h1]
    · rintro ⟨h1, h2⟩
      unfold percentage_to_grade
      rw [if_neg (show ¬(95:Rat) ≤ p by linarith),
        if_neg (show ¬(90:Rat) ≤ p by linarith),
        if_neg (show ¬(85:Rat) ≤ p by linarith),
        if_neg (show ¬(80:Rat) ≤ p by linarith),
        if_neg (show ¬(75:Rat) ≤ p by linarith),
        if_neg (show ¬(70:Rat) ≤ p by linarith),
        if_neg (show ¬(65:Rat) ≤ p by linarith),
        if_neg (show ¬(60:Rat) ≤ p by linarith),
        if_pos h1]
    · rintro ⟨h1, h2⟩
      unfold percentage_to_grade
      rw [if_neg (show ¬(95:Rat) ≤ p by linarith),
        if_neg (show ¬(90:Rat) ≤ p by linarith),
        if_neg (show ¬(85:Rat) ≤ p by linarith),
        if_neg (show ¬(80:Rat) ≤ p by linarith),
        if_neg (show ¬(75:Rat) ≤ p by linarith),
        if_neg (show ¬(70:Rat) ≤ p by linarith),
        if_neg (show ¬(65:Rat) ≤ p by linarith),
        if_neg (show ¬(60:Rat) ≤ p by linarith),
        if_neg (show ¬(55:Rat) ≤ p by linarith),
        if_pos h1]
    · rintro ⟨h1, h2⟩
      unfold percentage_to_grade
      rw [if_neg (show ¬(95:Rat) ≤ p by linarith),
        if_neg (show ¬(90:Rat) ≤ p by linarith),
        if_neg (show ¬(85:Rat) ≤ p by linarith),
        if_neg (show ¬(80:Rat) ≤ p by linarith),
        if_neg (show ¬(75:Rat) ≤ p by linarith),
        if_neg (show ¬(70:Rat) ≤ p by linarith),
        if_neg (show ¬(65:Rat) ≤ p by linarith),
        if_neg (show ¬(60:Rat) ≤ p by linarith),
        if_neg (show ¬(55:Rat) ≤ p by linarith),
        if_neg (show ¬(50:Rat) ≤ p by linarith),
        if_pos h1]
    · rintro ⟨h1, h2⟩
      unfold percentage_to_grade
      rw [if_neg (show ¬(95:Rat) ≤ p by linarith),
        if_neg (show ¬(90:Rat) ≤ p by linarith),
        if_neg (show ¬(85:Rat) ≤ p by linarith),
        if_neg (show ¬(80:Rat) ≤ p by linarith),
        if_neg (show ¬(75:Rat) ≤ p by linarith),
        if_neg (show ¬(70:Rat) ≤ p by linarith),
        if_neg (show ¬(65:Rat) ≤ p by linarith),
        if_neg (show ¬(60:Rat) ≤ p by linarith),
        if_neg (show ¬(55:Rat) ≤ p by linarith),
        if_neg (show ¬(50:Rat) ≤ p by linarith),
        if_neg (show ¬(45:Rat) ≤ p by linarith),
        if_pos h1]
    · intro h2
      unfold percentage_to_grade
      rw [if_neg (show ¬(95:Rat) ≤ p by linarith),
        if_neg (show ¬(90:Rat) ≤ p by linarith),
        if_neg (show ¬(85:Rat) ≤ p by linarith),
        if_neg (show ¬(80:Rat) ≤ p by linarith),
        if_neg (show ¬(75:Rat) ≤ p by linarith),
        if_neg (show ¬(70:Rat) ≤ p by linarith),
        if_neg (show ¬(65:Rat) ≤ p by linarith),
        if_neg (show ¬(60:Rat) ≤ p by linarith),
        if_neg (show ¬(55:Rat) ≤ p by linarith),
        if_neg (show ¬(50:Rat) ≤ p by linarith),
        if_neg (show ¬(45:Rat) ≤ p by linarith),
        if_neg (show ¬(40:Rat) ≤ p by linarith)]

/-- C3 witness: the monotonicity and threshold components applied at
concrete percentages 50 ≤ 80 and 83. -/
theorem percentage_to_grade_total_monotone_thresholds_witness :
    gradeRank (percentage_to_grade 50) ≤ gradeRank (percentage_to_grade 80) ∧
    percentage_to_grade 83 = "B+" := by
  refine ⟨percentage_to_grade_total_monotone_thresholds.2.1 50 80 (by norm_num), ?_⟩
  exact (percentage_to_grade_total_monotone_thresholds.2.2.1 83).2.2.2.1
    ⟨by norm_num, by norm_num⟩


/-- Any element of an `insertRankedDesc` result is the inserted pair or was
already present. -/
theorem mem_insertRankedDesc {z x : String × Rat} {l : List (String × Rat)}
    (hz : z ∈ insertRankedDesc x l) : z = x ∨ z ∈ l := by
  induction l with
  | nil => simpa [insertRankedDesc] using hz
  | cons y ys ih =>
    rw [insertRankedDesc] at hz
    split at hz
    · rcases List.mem_cons.mp hz with rfl | hz2
      · exact Or.inr (List.mem_cons_self _ _)
      · rcases ih hz2 with h | h
        · exact Or.inl h
        · exact Or.inr (List.mem_cons_of_mem y h)
    · rcases List.mem_cons.mp hz with rfl | hz2
      · exact Or.inl rfl
      · exact Or.inr hz2

/-- Inserting into a descending-sorted list keeps it descending-sorted. -/
theorem pairwise_insertRankedDesc (x : String × Rat) (l : List (String × Rat))
    (h : l.Pairwise (fun a b => b.2 ≤ a.2)) :
    (insertRankedDesc x l).Pairwise (fun a b => b.2 ≤ a.2) := by
  induction l with
  | nil => simp [insertRankedDesc]
  | cons y ys ih =>
    rw [List.pairwise_cons] at h
    rw [insertRankedDesc]
    split
    · rename_i hlt
      rw [List.pairwise_cons]
      constructor
      · intro z hz
        rcases mem_insertRankedDesc hz with rfl | hz2
        · exact le_of_lt hlt
        · exact h.1 z hz2
      · exact ih h.2
    · rename_i hge
      push_neg at hge
      rw [List.pairwise_cons]
      constructor
      · intro z hz
        rcases List.mem_cons.mp hz with rfl | hz2
        · exact hge
        · exact le_trans (h.1 z hz2) hge
      · rw [List.pairwise_cons]
        exact h

/-- The stable insertion sort produces a descending-sorted list. -/
theorem sortRankedDesc_pairwise (l : List (String × Rat)) :
    (sortRankedDesc l).Pairwise (fun a b => b.2 ≤ a.2) := by
  induction l with
  | nil => simp [sortRankedDesc]
  | cons x xs ih => exact pairwise_insertRankedDesc x (sortRankedDesc xs) ih

/-- Insertion preserves, per key, the subsequence of pairs carrying that
key — the inserted pair lands in front of its equals. -/
theorem filter_insertRankedDesc (x : String × Rat) (l : List (String × Rat)) (k : Rat) :
    (insertRankedDesc x l).filter (fun p => decide (p.2 = k))
      = (x :: l).filter (fun p => decide (p.2 = k)) := by
  induction l with
  | nil => rfl
  | cons y ys ih =>
    rw [insertRankedDesc]
    split
    · rename_i hlt
      by_cases hy : y.2 = k <;> by_cases hx : x.2 = k
      · rw [hx, hy] at hlt
        exact absurd hlt (lt_irrefl k)
      · simp [List.filter_cons, hy, hx, ih]
      · simp [List.filter_cons, hy, hx, ih]
      · simp [List.filter_cons, hy, hx, ih]
    · rfl

/-- Stability: sorting preserves, per key, the subsequence of pairs
carrying that key. -/
theorem filter_sortRankedDesc (l : List (String × Rat)) (k : Rat) :
    (sortRankedDesc l).filter (fun p => decide (p.2 = k))
      = l.filter (fun p => decide (p.2 = k)) := by
  induction l with
  | nil => rfl
  | cons x xs ih =>
    rw [sortRankedDesc, filter_insertRankedDesc]
    simp only [List.filter_cons]
    rw [ih]

/-- Splitting the loader fold into its dictionary and diagnostics halves. -/
theorem foldl_loadAccum_eq (files : List (String × FileContent)) :
    ∀ (r : List (String × Option ResultData)) (d : List String),
      files.foldl loadAccum (r, d)
        = (files.foldl insertFileAccum r, d ++ files.filterMap diagnosticOf) := by
  induction files with
  | nil => intro r d; simp
  | cons f fs ih =>
    intro r d
    match h : f.2 with
    | FileContent.ok data =>
      simp [loadAccum, insertFileAccum, diagnosticOf, h, ih]
    | FileContent.bad msg =>
      simp [loadAccum, insertFileAccum, diagnosticOf, h, ih]

/-- Unparseable files do not touch the results dictionary. -/
theorem foldl_insertFileAccum_filter (files : List (String × FileContent)) :
    ∀ r, files.foldl insertFileAccum r
      = (files.filter isParseOk).foldl insertFileAccum r := by
  induction files with
  | nil => intro r; rfl
  | cons f fs ih =>
    intro r
    match h : f.2 with
    | FileContent.ok data =>
      simp [List.filter_cons, isParseOk, h, insertFileAccum, ih]
    | FileContent.bad msg =>
      simp [List.filter_cons, isParseOk, h, insertFileAccum, ih]

/-- Looking a key up after a dictionary assignment. -/
theorem dictLookup_dictInsert (k k2 : String) (v : Option ResultData)
    (r : List (String × Option ResultData)) :
    dictLookup k (dictInsert k2 v r)
      = if k2 = k then some v else dictLookup k r := by
  induction r with
  | nil =>
    by_cases h : k2 = k
    · simp [dictInsert, dictLookup, h]
    · simp [dictInsert, dictLookup, h]
  | cons p l ih =>
    rw [dictInsert]
    by_cases hp : p.1 = k2
    · rw [if_pos hp]
      by_cases h : k2 = k
      · simp [dictLookup, h]
      · have hpk : ¬ p.1 = k := by rw [hp]; exact h
        simp [dictLookup, h, hpk]
    · rw [if_neg hp]
      by_cases hk : p.1 = k
      · have hne : ¬ k2 = k := fun he => hp (by rw [hk, he])
        simp [dictLookup, hk, hne]
      · simp [dictLookup, hk, ih]

/-- Dictionary assignment only ever appends an absent key. -/
theorem keys_dictInsert (k : String) (v : Option ResultData)
    (r : List (String × Option ResultData)) :
    (dictInsert k v r).map Prod.fst
      = if k ∈ r.map Prod.fst then r.map Prod.fst else r.map Prod.fst ++ [k] := by
  induction r with
  | nil => simp [dictInsert]
  | cons p l ih =>
    rw [dictInsert]
    by_cases hp : p.1 = k
    · simp [if_pos hp, hp]
    · rw [if_neg hp]
      by_cases hk : k ∈ l.map Prod.fst
      · simp [List.map_cons, ih, hk]
      · have hmem : ¬ k ∈ p.1 :: l.map Prod.fst := by
          intro hin
          rcases List.mem_cons.mp hin with he | he
          · exact hp he.symm
          · exact hk he
        simp only [List.map_cons, ih, if_neg hk, if_neg hmem]
        rfl

/-- Dictionary assignment keeps the keys duplicate-free. -/
theorem nodup_keys_dictInsert (k : String) (v : Option ResultData)
    (r : List (String × Option ResultData))
    (h : (r.map Prod.fst).Nodup) :
    ((dictInsert k v r).map Prod.fst).Nodup := by
  rw [keys_dictInsert]
  split
  · exact h
  · rename_i hk
    simp [List.nodup_append, h, hk]

/-- The loader fold keeps the dictionary keys duplicate-free. -/
theorem nodup_keys_foldl (files : List (String × FileContent)) :
    ∀ r, ((r.map Prod.fst).Nodup) →
      (((files.foldl insertFileAccum r)).map Prod.fst).Nodup := by
  induction files with
  | nil => intro r h; exact h
  | cons f fs ih =>
    intro r h
    rw [List.foldl_cons]
    apply ih
    match hf : f.2 with
    | FileContent.ok data =>
      simp only [insertFileAccum, hf]
      exact nodup_keys_dictInsert _ _ _ h
    | FileContent.bad m =>
      simpa [insertFileAccum, hf] using h

/-- The dictionary entry of a key is the document of the last parseable
file whose stem reduces to that key. -/
theorem lookup_loadedDict (k : String) (files : List (String × FileContent)) :
    dictLookup k (loadedDict files) = (files.filterMap (matchedDoc k)).getLast? := by
  induction files using List.reverseRecOn with
  | nil => rfl
  | append_singleton fs f ih =>
    have hld : fs.foldl insertFileAccum ([] : List (String × Option ResultData))
        = loadedDict fs := rfl
    rw [loadedDict, List.foldl_append, List.foldl_cons, List.foldl_nil, hld,
      List.filterMap_append]
    match hf : f.2 with
    | FileContent.ok data =>
      simp only [insertFileAccum, hf]
      rw [dictLookup_dictInsert]
      by_cases hk : terminal_name_of_stem f.1 = k
      · rw [if_pos hk]
        simp [matchedDoc, hf, hk]
      · rw [if_neg hk]
        simp [matchedDoc, hf, hk, ih]
    | FileContent.bad m =>
      simp [insertFileAccum, matchedDoc, hf, ih]

/-- C6 counterexample: for a displayless terminal on a host with neither
xvfb-run nor docker, the auto chain invokes the native strategy, sees it
fail, and invokes the very same failed strategy again as its final
fallback — so a strategy is retried after failing. -/
theorem auto_mode_retries_failed_native :
    (autoRun strandedEnv).1 = [Strategy.native, Strategy.native] ∧
    strategyOutcome strandedEnv Strategy.native = none ∧
    (autoRun strandedEnv).2 = none := by decide

/-- C6 (amended): in auto mode the chain stops at the first success —
every attempt before the last fails and the result is the last attempt's
outcome — and the xvfb and docker strategies are attempted at most once;
the native strategy alone may be attempted twice, and only when its
attempt fails, because the final fallback re-invokes it unconditionally. -/
theorem auto_mode_first_success_and_attempt_bounds (α : Type) (env : AutoEnv α) :
    (∀ s ∈ (autoRun env).1.dropLast, strategyOutcome env s = none) ∧
    (autoRun env).2 = (autoRun env).1.getLast?.bind (strategyOutcome env) ∧
    (autoRun env).1.count Strategy.xvfb ≤ 1 ∧
    (autoRun env).1.count Strategy.docker ≤ 1 ∧
    (autoRun env).1.count Strategy.native ≤ 2 ∧
    ((autoRun env).1.count Strategy.native = 2 → env.native_outcome = none) := by
  obtain ⟨nd, xa, da, no, xo, dko⟩ := env
  cases nd <;> cases xa <;> cases da <;> cases no <;> cases xo <;> cases dko <;>
    simp [autoRun, strategyOutcome, List.count_cons, List.count_nil]

/-- C6 witness: the attempt-count bound applied to the concrete stranded
environment, whose trace attempts native twice. -/
theorem auto_mode_first_success_and_attempt_bounds_witness :
    strandedEnv.native_outcome = none :=
  (auto_mode_first_success_and_attempt_bounds Unit strandedEnv).2.2.2.2.2 (by decide)

/-- C8: the report ranking is descending in FINAL percentage, stable — for
every percentage value the pairs carrying it appear in their original
insertion order — and on terminals A, B, C with FINAL 80, 80, 90 discovered
in that order it produces [C, A, B]. -/
theorem ranking_sorted_desc_stable :
    (∀ scores : List (String × TerminalScorecard),
      (rank_terminals scores).Pairwise (fun a b => b.2 ≤ a.2)) ∧
    (∀ (scores : List (String × TerminalScorecard)) (k : Rat),
      (rank_terminals scores).filter (fun p => decide (p.2 = k))
        = (scores.map (fun p => (p.1, p.2.FINAL.percentage))).filter
            (fun p => decide (p.2 = k))) ∧
    rank_terminals [("A", cardOfFinal 80), ("B", cardOfFinal 80), ("C", cardOfFinal 90)]
      = [("C", 90), ("A", 80), ("B", 80)] := by
  refine ⟨?_, ?_, by decide⟩
  · intro scores
    exact sortRankedDesc_pairwise _
  · intro scores k
    exact filter_sortRankedDesc _ k

/-- C9: the loader never aborts a batch — a missing directory yields the
empty dictionary plus a report, the diagnostics are exactly the error
lines of the unparseable files, and the loaded dictionary is exactly what
the parseable files alone produce (bad files are skipped). -/
theorem loader_never_aborts :
    load_results none = ([], ["Results directory does not exist"]) ∧
    (∀ files, load_results (some files)
        = (loadedDict files, files.filterMap diagnosticOf)) ∧
    (∀ files, loadedDict files = loadedDict (files.filter isParseOk)) := by
  refine ⟨rfl, ?_, ?_⟩
  · intro files
    rw [load_results, loadedDict, foldl_loadAccum_eq]
    simp
  · intro files
    rw [loadedDict, loadedDict, foldl_insertFileAccum_filter]

/-- C10 counterexample: on the two-token stem "xterm_20240101" the code
keys the document by "xterm" — it strips only the one trailing token —
whereas the claim's rule (strip the two trailing underscore-delimited
tokens, keep whole stems with fewer than two tokens) yields "". -/
theorem two_token_stem_key_differs_from_claim :
    terminal_name_of_stem "xterm_20240101" = "xterm" ∧
    claimedKeyC10 "xterm_20240101" = "" ∧
    ¬ terminal_name_of_stem "xterm_20240101" = claimedKeyC10 "xterm_20240101" := by
  decide


/-- Splitting never produces an empty token list. -/
theorem splitUnderscoreAux_ne_nil (cs : List Char) : splitUnderscoreAux cs ≠ [] := by
  match cs with
  | [] => simp [splitUnderscoreAux]
  | c :: rest =>
    rw [splitUnderscoreAux]
    by_cases hc : c = '_'
    · simp [hc]
    · simp only [if_neg hc]
      match h : splitUnderscoreAux rest with
      | [] => simp
      | t :: ts => simp

/-- Rejoining the split of a character list restores it. -/
theorem join_split (cs : List Char) :
    joinUnderscoreChars (splitUnderscoreAux cs) = cs := by
  induction cs with
  | nil => rfl
  | cons c rest ih =>
    rw [splitUnderscoreAux]
    by_cases hc : c = '_'
    · simp only [if_pos hc]
      match h : splitUnderscoreAux rest with
      | [] => exact absurd h (splitUnderscoreAux_ne_nil rest)
      | t :: ts =>
        rw [h] at ih
        subst hc
        exact congrArg (List.cons '_') ih
    · simp only [if_neg hc]
      match h : splitUnderscoreAux rest with
      | [] => exact absurd h (splitUnderscoreAux_ne_nil rest)
      | t :: ts =>
        rw [h] at ih
        match ts with
        | [] => exact congrArg (List.cons c) ih
        | u :: us => exact congrArg (List.cons c) ih

/-- The accumulator of `String.intercalate.go` factors out on the left. -/
theorem intercalate_go_append (s : String) (l : List String) :
    ∀ (x y : String), String.intercalate.go (x ++ y) s l
      = x ++ String.intercalate.go y s l := by
  induction l with
  | nil => intro x y; rfl
  | cons a as ih =>
    intro x y
    rw [String.intercalate.go, String.intercalate.go, String.append_assoc,
      String.append_assoc, ih, String.append_assoc y s a]

/-- The head-recurrence of `String.intercalate` on a two-or-more list. -/
theorem intercalate_cons_cons (s a b : String) (l : List String) :
    String.intercalate s (a :: b :: l) = a ++ s ++ String.intercalate s (b :: l) := by
  show String.intercalate.go a s (b :: l) = a ++ s ++ String.intercalate.go b s l
  rw [String.intercalate.go]
  have h : a ++ s ++ b = (a ++ s) ++ b := rfl
  rw [h, intercalate_go_append, String.append_assoc]

/-- Joining tokens as strings equals joining their character lists. -/
theorem intercalate_map_mk (l : List (List Char)) :
    String.intercalate "_" (l.map String.mk) = String.mk (joinUnderscoreChars l) := by
  induction l with
  | nil => rfl
  | cons t ts ih =>
    match ts with
    | [] => rfl
    | u :: us =>
      show String.intercalate "_"
          (String.mk t :: String.mk u :: List.map String.mk us)
        = String.mk (joinUnderscoreChars (t :: u :: us))
      rw [intercalate_cons_cons]
      have ih2 : String.intercalate "_" (String.mk u :: List.map String.mk us)
          = String.mk (joinUnderscoreChars (u :: us)) := ih
      rw [ih2]
      show String.mk ((t ++ ['_']) ++ joinUnderscoreChars (u :: us))
        = String.mk (t ++ '_' :: joinUnderscoreChars (u :: us))
      rw [List.append_assoc]
      rfl

/-- Every stem is the underscore-join of its tokens. -/
theorem stemTokens_intercalate (s : String) :
    String.intercalate "_" (stemTokens s) = s := by
  rw [stemTokens, intercalate_map_mk, join_split]

/-- The identity-extraction rule of `terminal_name_of_stem`, universally
over stems: a stem is the underscore-join of its tokens; a single-token
stem is kept whole; a two-token stem keeps only its first token (one token
stripped); a stem of three or more tokens keeps all but its last two. -/
theorem terminal_name_rule (s : String) :
    s = String.intercalate "_" (stemTokens s) ∧
    ((stemTokens s).length = 1 → terminal_name_of_stem s = s) ∧
    ((stemTokens s).length = 2 →
      terminal_name_of_stem s = String.intercalate "_" ((stemTokens s).take 1)) ∧
    (3 ≤ (stemTokens s).length →
      terminal_name_of_stem s
        = String.intercalate "_" ((stemTokens s).take ((stemTokens s).length - 2))) := by
  refine ⟨(stemTokens_intercalate s).symm, ?_, ?_, ?_⟩
  · intro h1
    obtain ⟨t, ht⟩ := List.length_eq_one.mp h1
    have hs := stemTokens_intercalate s
    rw [ht] at hs
    rw [terminal_name_of_stem, pyRsplitUnderscore2, ht]
    simp only [List.length_cons, List.length_nil]
    rw [if_pos (by norm_num)]
    exact hs
  · intro h2
    obtain ⟨a, b, hab⟩ := List.length_eq_two.mp h2
    rw [terminal_name_of_stem, pyRsplitUnderscore2, hab]
    simp only [List.length_cons, List.length_nil]
    rw [if_pos (by norm_num)]
    rfl
  · intro h3
    rw [terminal_name_of_stem, pyRsplitUnderscore2]
    by_cases hle : (stemTokens s).length ≤ 3
    · have hlen : (stemTokens s).length = 3 := le_antisymm hle h3
      obtain ⟨a, b, c, habc⟩ := List.length_eq_three.mp hlen
      rw [if_pos hle, hlen, habc]
      rfl
    · rw [if_neg hle]
      rfl

/-- C10 (amended): the loaded mapping has duplicate-free keys; the entry
for an identity is the document of the last file in enumeration order
reducing to it; and, universally over stems — each being the
underscore-join of its tokens — the identity strips the two trailing
underscore-delimited tokens when the stem has at least three tokens,
strips only the final token when it has exactly two, and keeps a
single-token stem whole; concretely, `xterm_20240101_120000`,
`xterm_20240101` and `xterm` all reduce to `xterm`. -/
theorem loader_key_uniqueness_last_wins :
    (∀ files, (((load_results (some files)).1.map Prod.fst)).Nodup) ∧
    (∀ files k, dictLookup k (load_results (some files)).1
        = (files.filterMap (matchedDoc k)).getLast?) ∧
    (∀ s : String,
      s = String.intercalate "_" (stemTokens s) ∧
      ((stemTokens s).length = 1 → terminal_name_of_stem s = s) ∧
      ((stemTokens s).length = 2 →
        terminal_name_of_stem s
          = String.intercalate "_" ((stemTokens s).take 1)) ∧
      (3 ≤ (stemTokens s).length →
        terminal_name_of_stem s
          = String.intercalate "_" ((stemTokens s).take ((stemTokens s).length - 2)))) ∧
    terminal_name_of_stem "xterm_20240101_120000" = "xterm" ∧
    terminal_name_of_stem "xterm_20240101" = "xterm" ∧
    terminal_name_of_stem "xterm" = "xterm" := by
  refine ⟨?_, ?_, terminal_name_rule, by decide, by decide, by decide⟩
  · intro files
    rw [load_results, foldl_loadAccum_eq files [] []]
    exact nodup_keys_foldl files [] (by simp)
  · intro files k
    rw [load_results, foldl_loadAccum_eq files [] []]
    exact lookup_loadedDict k files

/-- C10 witness: the at-least-three-tokens clause of the identity rule
applied to the concrete four-token stem `foo_bar_20240101_120000`. -/
theorem loader_key_uniqueness_last_wins_witness :
    terminal_name_of_stem "foo_bar_20240101_120000" = "foo_bar" := by
  have h := (loader_key_uniqueness_last_wins.2.2.1
    "foo_bar_20240101_120000").2.2.2 (by decide)
  exact h.trans (by decide)

end UcsDetect
